import Mathlib

/-!
Shallow embedding of the base-agent core (Rust): the LLM message types
(`llm/types.rs`), the key rotator (`llm/rotation.rs`), the Gemini adapter's
attempt loop and HTTP-outcome classification (`llm/gemini_adapter.rs`), the
tool registry (`tools/registry.rs`), the task store (`task/store.rs`), the
configuration defaults (`config.rs`) and the agent execution loop
(`agent.rs`), together with theorems checking the specification's claims.

Modelling conventions: machine integers become `Nat`; `f64` temperatures
become `Rat` (only the exact comparison with `0.0` matters to any claim);
`serde_json::Value` becomes the inductive `JValue`; wall-clock timestamps
(`Utc::now()`) are passed in as explicit `Nat` parameters; the network is
abstracted as a function from attempt index and credential to an outcome;
fallible Rust `Result` values become `Except`.
-/

namespace BaseAgent

/-- Model of `serde_json::Value`. -/
inductive JValue where
  | null : JValue
  | bool : Bool → JValue
  | num : Int → JValue
  | str : String → JValue
  | arr : List JValue → JValue
  | obj : List (String × JValue) → JValue

/-- JSON string escaping for the compact renderer (models serde_json `Display`). -/
def escapeJsonChar (c : Char) : String :=
  if c = '\"' then "\\\""
  else if c = '\\' then "\\\\"
  else if c = '\n' then "\\n"
  else if c = '\t' then "\\t"
  else if c = '\r' then "\\r"
  else String.singleton c

/-- Escape every character of a JSON string body. -/
def escapeJson (s : String) : String :=
  String.join (s.data.map escapeJsonChar)

mutual

/-- Model of serde_json's compact `Value::to_string` used by `render_value`
(agent.rs lines 156-161). -/
def JValue.render : JValue → String
  | .null => "null"
  | .bool b => if b then "true" else "false"
  | .num n => toString n
  | .str s => "\"" ++ escapeJson s ++ "\""
  | .arr xs => "[" ++ JValue.renderArr xs ++ "]"
  | .obj fs => "\x7b" ++ JValue.renderObj fs ++ "\x7d"

/-- Comma-separated rendering of a JSON array's elements. -/
def JValue.renderArr : List JValue → String
  | [] => ""
  | x :: rest =>
    JValue.render x ++ (if rest.isEmpty then "" else ",") ++ JValue.renderArr rest

/-- Comma-separated rendering of a JSON object's fields. -/
def JValue.renderObj : List (String × JValue) → String
  | [] => ""
  | (k, v) :: rest =>
    "\"" ++ escapeJson k ++ "\":" ++ JValue.render v ++
      (if rest.isEmpty then "" else ",") ++ JValue.renderObj rest

end

/-- `Message` (llm/types.rs lines 7-11). -/
structure Message where
  role : String
  content : String
deriving DecidableEq

/-- `ToolCall` (llm/types.rs lines 13-17). -/
structure ToolCall where
  name : String
  args : JValue

/-- `ToolSchema` (tools/types.rs lines 5-10). -/
structure ToolSchema where
  name : String
  description : String
  parameters : Option JValue

/-- `ToolResult` (tools/types.rs lines 12-17). -/
structure ToolResult where
  success : Bool
  output : Option JValue
  error : Option String

/-- `LLMResponse` (llm/types.rs lines 19-24). -/
structure LLMResponse where
  content : String
  tool_calls : List ToolCall
  raw : Option JValue

/-- `CompletionRequest` (llm/types.rs lines 26-34). -/
structure CompletionRequest where
  messages : List Message
  tools : Option (List ToolSchema)
  temperature : Option Rat
  model : Option String
  provider : Option String
  metadata : Option JValue

/-- `ProviderError` (llm/types.rs lines 36-41). -/
structure ProviderError where
  code : String
  message : String
  retryable : Bool
deriving DecidableEq

/-- `ToolHandler` (tools/types.rs line 19): a handler maps structured args to a
structured result or a failure reason. -/
abbrev ToolHandler := JValue → Except String JValue

/-- `ToolEntry` (tools/types.rs lines 21-25). -/
structure ToolEntry where
  name : String
  handler : ToolHandler
  schema : ToolSchema

/-- The registry's `HashMap<String, ToolEntry>` modelled as an association
list keyed by tool name (registry.rs line 9). -/
abbrev ToolRegistry := List (String × ToolEntry)

/-- `ToolRegistry::register` (registry.rs lines 19-43). Returns the call's
result together with the (possibly unchanged) registry contents, mirroring
the Rust method's in-place mutation. -/
def ToolRegistry.register (reg : ToolRegistry) (name : String)
    (handler : ToolHandler) (schema : ToolSchema) :
    Except String Unit × ToolRegistry :=
  if name = "" then
    (.error "invalid tool", reg)
  else
    let schema' := if schema.name = "" then { schema with name := name } else schema
    if schema'.name ≠ name then
      (.error "schema name mismatch", reg)
    else if (reg.find? (fun p => p.1 = name)).isSome then
      (.error "tool already registered", reg)
    else
      (.ok (), reg ++ [(name, ⟨name, handler, schema'⟩)])

/-- `ToolRegistry::execute` (registry.rs lines 45-80).  The lock-poisoning
branch of the Rust code is unreachable in this sequential model and is not
modelled; every other path is. -/
def ToolRegistry.execute (reg : ToolRegistry) (name : String) (args : JValue) :
    ToolResult :=
  match reg.find? (fun p => p.1 = name) with
  | none => ⟨false, none, some "tool not found"⟩
  | some entry =>
    match entry.2.handler args with
    | .ok output => ⟨true, some output, none⟩
    | .error err => ⟨false, none, some err⟩

/-- `ToolRegistry::get_schemas` (registry.rs lines 82-88). -/
def ToolRegistry.get_schemas (reg : ToolRegistry) : List ToolSchema :=
  reg.map (fun p => p.2.schema)

/-- `ToolRegistry::has` (registry.rs lines 90-96). -/
def ToolRegistry.has (reg : ToolRegistry) (name : String) : Bool :=
  (reg.find? (fun p => p.1 = name)).isSome

/-- `ToolRegistry::count` (registry.rs lines 98-104). -/
def ToolRegistry.count (reg : ToolRegistry) : Nat :=
  reg.length

/-- `Rotator` (rotation.rs lines 3-6): the ordered credential list plus the
mutex-guarded cursor, modelled as a plain state record. -/
structure Rotator where
  keys : List String
  cursor : Nat
deriving DecidableEq

/-- `Rotator::next` (rotation.rs lines 16-24): returns `none` on an empty
credential list, otherwise the credential at `cursor % keys.length`, and
advances the cursor by one. -/
def Rotator.next (r : Rotator) : Option String × Rotator :=
  if r.keys.isEmpty then
    (none, r)
  else
    (some (r.keys.getD (r.cursor % r.keys.length) ""), ⟨r.keys, r.cursor + 1⟩)

/-- A sequence of `n` consecutive `Rotator::next` calls, collecting the
returned credentials in call order. -/
def Rotator.run (r : Rotator) : Nat → List (Option String) × Rotator
  | 0 => ([], r)
  | n + 1 =>
    let (v, r1) := r.next
    let (vs, r2) := Rotator.run r1 n
    (v :: vs, r2)

/-- The credential a rotator over `keys` yields when its cursor stands at
`c`: the entry at `c % keys.length` (rotation.rs line 21). -/
def rotKeyAt (keys : List String) (c : Nat) : String :=
  keys.getD (c % keys.length) ""

/-- `TaskStatus` (task/types.rs lines 4-10). -/
inductive TaskStatus where
  | Pending
  | Running
  | Completed
  | Failed
deriving DecidableEq

/-- `Task` (task/types.rs lines 12-21) with timestamps as `Nat`. -/
structure Task where
  id : String
  instruction : String
  status : TaskStatus
  output : Option String
  error : Option String
  created_at : Nat
  completed_at : Option Nat
deriving DecidableEq

/-- The store's `HashMap<String, Task>` modelled as an association list. -/
abbrev TaskMap := List (String × Task)

/-- Key lookup in the task map (`map.get`/`map.get_mut`). -/
def TaskMap.get (m : TaskMap) (id : String) : Option Task :=
  (m.find? (fun p => p.1 = id)).map (fun p => p.2)

/-- Key insertion in the task map (`map.insert`): replaces the entry when the
key is present, appends it otherwise. -/
def TaskMap.insert (m : TaskMap) (id : String) (t : Task) : TaskMap :=
  if (m.find? (fun p => p.1 = id)).isSome then
    m.map (fun p => if p.1 = id then (id, t) else p)
  else
    m ++ [(id, t)]

/-- `TaskStore::create` (store.rs lines 27-43).  The freshly generated id
(`next_id`, a global counter plus wall-clock time) and the creation time are
explicit parameters; file persistence (`save_if_needed`) has no effect on the
in-memory map and is not modelled. -/
def TaskStore.create (m : TaskMap) (id instruction : String) (now : Nat) :
    Task × TaskMap :=
  let task : Task := ⟨id, instruction, .Pending, none, none, now, none⟩
  (task, m.insert id task)

/-- The per-task field mutation performed by `TaskStore::update` on a known id
(store.rs lines 55-64): set the status, overwrite output/error only when
supplied, and stamp `completed_at` exactly when the new status is Completed or
Failed. -/
def TaskStore.applyUpdate (task : Task) (status : TaskStatus)
    (output error : Option String) (now : Nat) : Task :=
  let t1 := { task with status := status }
  let t2 := if output.isSome then { t1 with output := output } else t1
  let t3 := if error.isSome then { t2 with error := error } else t2
  if status = .Completed ∨ status = .Failed then
    { t3 with completed_at := some now }
  else t3

/-- `TaskStore::update` (store.rs lines 45-70): no-op returning `none` for an
unknown id; otherwise applies `TaskStore.applyUpdate` to the found task and
stores the result back under the same id. -/
def TaskStore.update (m : TaskMap) (id : String) (status : TaskStatus)
    (output error : Option String) (now : Nat) : Option Task × TaskMap :=
  match m.get id with
  | none => (none, m)
  | some task =>
    let t4 := TaskStore.applyUpdate task status output error now
    (some t4, m.insert id t4)

/-- `GEMINI_ALLOWED_MODELS` (gemini_adapter.rs line 8). -/
def GEMINI_ALLOWED_MODELS : List String :=
  ["gemini-3-flash-preview", "gemini-3-pro-preview"]

/-- `GeminiConfig` (gemini_adapter.rs lines 10-15), temperature as `Rat`. -/
structure GeminiConfig where
  api_keys : List String
  base_url : String
  model : String
  temperature : Rat

/-- The outcome of one HTTP exchange as seen by `send_request`: either a
transport failure from `reqwest` or a response with a status code and a body
text. -/
inductive HttpOutcome where
  | netError : String → HttpOutcome
  | response : Nat → String → HttpOutcome

/-- `reqwest` `StatusCode::is_client_error`: 400 ≤ status ≤ 499. -/
def isClientError (status : Nat) : Bool :=
  decide (400 ≤ status ∧ status ≤ 499)

/-- `reqwest` `StatusCode::is_server_error`: 500 ≤ status ≤ 599. -/
def isServerError (status : Nat) : Bool :=
  decide (500 ≤ status ∧ status ≤ 599)

/-- Rust `str::contains` for string needles, via `splitOn`: the needle occurs
iff splitting on it produces at least two pieces. -/
def containsSub (haystack needle : String) : Bool :=
  decide (2 ≤ (haystack.splitOn needle).length)

/-- Field lookup on a JSON object (`Value::get`). -/
def JValue.getField : JValue → String → Option JValue
  | .obj fields, key => ((fields.find? (fun p => p.1 = key)).map (fun p => p.2))
  | _, _ => none

/-- `Value::as_array`. -/
def JValue.asArr : JValue → Option (List JValue)
  | .arr xs => some xs
  | _ => none

/-- `Value::as_str`. -/
def JValue.asStr : JValue → Option String
  | .str s => some s
  | _ => none

/-- The text fragment a response part contributes (gemini_adapter.rs lines
195-198): the part's `text` field when it is a string, nothing otherwise. -/
def partText (p : JValue) : String :=
  (((p.getField "text").bind JValue.asStr)).getD ""

/-- The tool calls a response part contributes (gemini_adapter.rs lines
199-206): one call per `functionCall` field, name defaulting to `""` and args
defaulting to the empty object. -/
def partCalls (p : JValue) : List ToolCall :=
  match p.getField "functionCall" with
  | none => []
  | some fc =>
    [⟨(((fc.getField "name").bind JValue.asStr)).getD "",
      ((fc.getField "args")).getD (JValue.obj [])⟩]

/-- `parse_response` (gemini_adapter.rs lines 177-210): drill into
`candidates[0].content.parts`, concatenate the text fragments in order and
collect the function calls in order. -/
def parse_response (raw : JValue) : String × List ToolCall :=
  match ((((raw.getField "candidates").bind JValue.asArr).bind List.head?
      |>.bind (fun f => f.getField "content")).bind
      (fun c => (c.getField "parts").bind JValue.asArr)) with
  | none => ("", [])
  | some parts =>
    (String.join (parts.map partText), (parts.map partCalls).flatten)

/-- `send_request` (gemini_adapter.rs lines 131-175) after the HTTP exchange:
classify the outcome into the `ProviderError` taxonomy or parse the success
body.  JSON parsing of the body (serde_json, external library) is abstracted
as the `parse` parameter. -/
def send_request (parse : String → Option JValue) (outcome : HttpOutcome) :
    Except ProviderError LLMResponse :=
  match outcome with
  | .netError msg => .error ⟨"network_error", msg, true⟩
  | .response status body =>
    if isClientError status || isServerError status then
      let lowered := body.toLower
      if status = 401 ∨ status = 403 then
        .error ⟨"auth_error", body, true⟩
      else if status = 429 ∨ containsSub lowered "quota" = true ∨
          containsSub lowered "resource_exhausted" = true then
        .error ⟨"rate_limit", body, true⟩
      else if isServerError status then
        .error ⟨"server_error", body, true⟩
      else
        .error ⟨"api_error", body, false⟩
    else
      match parse body with
      | none => .error ⟨"parse_error", "invalid json", false⟩
      | some raw =>
        .ok ⟨(parse_response raw).1, (parse_response raw).2, some raw⟩

/-- State of the Gemini adapter's credential-retry loop (gemini_adapter.rs
lines 66-76): the successful response if any, the last observed error, the
number of `send_request` calls made, and the rotator cursor. -/
structure GeminiTry where
  result : Option LLMResponse
  last_err : Option ProviderError
  attempts : Nat
  cursor : Nat

/-- The `for _ in 0..tries` loop of `GeminiAdapter::complete`
(gemini_adapter.rs lines 67-76).  `send` maps the attempt index and the
credential drawn from the rotator to that network call's outcome. -/
def geminiTryLoop (keys : List String)
    (send : Nat → String → Except ProviderError LLMResponse) :
    Nat → Nat → Option ProviderError → Nat → GeminiTry
  | 0, cursor, last_err, attempts => ⟨none, last_err, attempts, cursor⟩
  | n + 1, cursor, last_err, attempts =>
    match Rotator.next ⟨keys, cursor⟩ with
    | (none, r1) => ⟨none, last_err, attempts, r1.cursor⟩
    | (some key, r1) =>
      match send attempts key with
      | .ok resp => ⟨some resp, last_err, attempts + 1, r1.cursor⟩
      | .error e => geminiTryLoop keys send n r1.cursor (some e) (attempts + 1)

/-- `GeminiAdapter::complete` (gemini_adapter.rs lines 47-78): model
validation, the empty-credential fast failure, then up to one attempt per
credential, stopping at the first success; all failing returns the last
observed error.  Returns the result, the number of `send_request` calls made
and the final rotator cursor.  The request payload built by `build_payload`
only feeds the abstracted network call and is not modelled. -/
def GeminiAdapter.complete (cfg : GeminiConfig) (cursor : Nat)
    (send : Nat → String → Except ProviderError LLMResponse)
    (request : CompletionRequest) :
    Except ProviderError LLMResponse × Nat × Nat :=
  let model := request.model.getD cfg.model
  if model ∉ GEMINI_ALLOWED_MODELS then
    (.error ⟨"invalid_model", "model not allowed: " ++ model, false⟩, 0, cursor)
  else if cfg.api_keys.length = 0 then
    (.error ⟨"auth_error", "no Gemini API keys", false⟩, 0, cursor)
  else
    let out := geminiTryLoop cfg.api_keys send cfg.api_keys.length cursor none 0
    match out.result with
    | some resp => (.ok resp, out.attempts, out.cursor)
    | none =>
      (.error (out.last_err.getD ⟨"api_error", "request failed", true⟩),
        out.attempts, out.cursor)

/-- `AgentConfig` (config.rs lines 1-10), temperature as `Rat`. -/
structure AgentConfig where
  provider : String
  model : String
  reasoning_effort : Option String
  max_iterations : Nat
  temperature : Rat
  enable_task_store : Bool
  codex_auth_file : Option String
deriving DecidableEq

/-- `AgentConfig::default` (config.rs lines 12-24). -/
def AgentConfig.default : AgentConfig :=
  ⟨"gemini", "gemini-3-flash-preview", none, 10, 3 / 10, true, none⟩

/-- The configuration normalization performed by `Agent::new` (agent.rs lines
28-39): empty provider, empty model, zero max_iterations and zero temperature
are each replaced with the built-in default. -/
def Agent.normalizeConfig (config : AgentConfig) : AgentConfig :=
  let c1 :=
    if config.provider = "" then
      { config with provider := AgentConfig.default.provider }
    else config
  let c2 := if c1.model = "" then { c1 with model := AgentConfig.default.model } else c1
  let c3 :=
    if c2.max_iterations = 0 then
      { c2 with max_iterations := AgentConfig.default.max_iterations }
    else c2
  if c3.temperature = 0 then
    { c3 with temperature := AgentConfig.default.temperature }
  else c3

/-- The `Agent` fields the execution loop reads (agent.rs lines 11-18).  The
router is abstracted as the completion oracle passed to `Agent.execute`. -/
structure AgentModel where
  name : String
  config : AgentConfig
  system_prompt : String
  tools : ToolRegistry

/-- `render_value` (agent.rs lines 156-161). -/
def render_value (value : Option JValue) : String :=
  match value with
  | some val => val.render
  | none => ""

/-- The content of the user-role message summarizing one tool call's
execution (agent.rs lines 126-135). -/
def toolMessageContent (reg : ToolRegistry) (call : ToolCall) : String :=
  let result := reg.execute call.name call.args
  if result.success then
    "Tool " ++ call.name ++ " result: " ++ render_value result.output
  else
    "Tool " ++ call.name ++ " error: " ++ (result.error.getD "unknown error")

/-- The user-role messages appended for a response's tool calls, one per call
in the order the calls were returned (agent.rs lines 125-140). -/
def toolMessages (reg : ToolRegistry) (calls : List ToolCall) : List Message :=
  calls.map (fun call => ⟨"user", toolMessageContent reg call⟩)

/-- The `CompletionRequest` built on each loop iteration (agent.rs lines
85-92). -/
def buildRequest (ag : AgentModel) (schemas : Option (List ToolSchema))
    (msgs : List Message) : CompletionRequest :=
  ⟨msgs, schemas, some ag.config.temperature, some ag.config.model,
    some ag.config.provider, none⟩

/-- The two seed messages of every execution (agent.rs lines 67-76). -/
def seedMessages (ag : AgentModel) (instruction : String) : List Message :=
  [⟨"system", ag.system_prompt⟩, ⟨"user", instruction⟩]

/-- The advertised tool schema set, omitted when the registry is empty
(agent.rs lines 78-82). -/
def Agent.toolSchemas (ag : AgentModel) : Option (List ToolSchema) :=
  if 0 < ag.tools.count then some ag.tools.get_schemas else none

/-- How the loop exits: the returned success flag and output, the terminal
task update `(status, output, error)` the exit path issues when a store is
attached, and the number of router completions performed. -/
structure LoopExit where
  success : Bool
  output : String
  update : TaskStatus × Option String × Option String
  calls : Nat

/-- Add `n` to an exit's completion count (used when prepending iterations). -/
def LoopExit.bump (n : Nat) (e : LoopExit) : LoopExit :=
  { e with calls := e.calls + n }

/-- The `for _ in 0..max_iterations` loop of `Agent::execute` (agent.rs lines
84-152), with the router abstracted as the oracle `env` mapping the iteration
index and the built request to the completion outcome.  `k` is the absolute
0-based iteration index, `fuel` the remaining iterations. -/
def runLoop (ag : AgentModel)
    (env : Nat → CompletionRequest → Except ProviderError LLMResponse)
    (schemas : Option (List ToolSchema)) :
    Nat → Nat → List Message → LoopExit
  | _, 0, _ => ⟨false, "", (.Failed, none, some "max iterations reached"), 0⟩
  | k, fuel + 1, msgs =>
    match env k (buildRequest ag schemas msgs) with
    | .error err => ⟨false, "", (.Failed, none, some err.message), 1⟩
    | .ok resp =>
      if resp.tool_calls.isEmpty then
        ⟨true, resp.content, (.Completed, some resp.content, none), 1⟩
      else
        LoopExit.bump 1 (runLoop ag env schemas (k + 1) fuel
          (msgs ++ ⟨"assistant", resp.content⟩ :: toolMessages ag.tools resp.tool_calls))

/-- `Agent::execute` (agent.rs lines 60-153): create the task when a store is
attached, seed the conversation, run the loop, apply the exit's terminal task
update, and return the `AgentResult` (success, output, task id) together with
the updated store.  `freshId` is the id `next_id` would mint; `tCreate` and
`tUpdate` the two `Utc::now()` readings. -/
def Agent.execute (ag : AgentModel)
    (env : Nat → CompletionRequest → Except ProviderError LLMResponse)
    (instruction : String) (store : Option TaskMap) (freshId : String)
    (tCreate tUpdate : Nat) :
    (Bool × String × Option String) × Option TaskMap :=
  let created := store.map (fun m => TaskStore.create m freshId instruction tCreate)
  let taskId := created.map (fun p => p.1.id)
  let store1 := created.map (fun p => p.2)
  let exit := runLoop ag env (Agent.toolSchemas ag) 0 ag.config.max_iterations
    (seedMessages ag instruction)
  let store2 :=
    match store1, taskId with
    | some m, some id =>
      some (TaskStore.update m id exit.update.1 exit.update.2.1 exit.update.2.2 tUpdate).2
    | _, _ => store1
  ((exit.success, exit.output, taskId), store2)

/-- The conversation as it stands when iteration `k` (0-based) builds its
request: the trace function of the loop's message accumulation (agent.rs
lines 120-140). -/
def iterMessages (ag : AgentModel)
    (env : Nat → CompletionRequest → Except ProviderError LLMResponse)
    (schemas : Option (List ToolSchema)) (seed : List Message) :
    Nat → List Message
  | 0 => seed
  | k + 1 =>
    let msgs := iterMessages ag env schemas seed k
    match env k (buildRequest ag schemas msgs) with
    | .error _ => msgs
    | .ok resp =>
      if resp.tool_calls.isEmpty then msgs
      else msgs ++ ⟨"assistant", resp.content⟩ :: toolMessages ag.tools resp.tool_calls

/-- Iteration `j` of the loop succeeds and returns at least one tool call. -/
def okStep (ag : AgentModel)
    (env : Nat → CompletionRequest → Except ProviderError LLMResponse)
    (schemas : Option (List ToolSchema)) (seed : List Message) (j : Nat) : Prop :=
  ∃ resp, env j (buildRequest ag schemas (iterMessages ag env schemas seed j)) =
      .ok resp ∧ resp.tool_calls ≠ []

/-! ## Theorems -/

/-- One `next` call on a non-empty rotator yields the credential at the
cursor and advances the cursor. -/
theorem rotator_next_of_ne (keys : List String) (c : Nat) (h : keys ≠ []) :
    Rotator.next ⟨keys, c⟩ = (some (rotKeyAt keys c), ⟨keys, c + 1⟩) := by
  cases keys with
  | nil => exact absurd rfl h
  | cons a l => simp [Rotator.next, rotKeyAt]

/-- Trace of `n` consecutive `next` calls on a non-empty rotator: the `i`-th
call returns the credential at cursor `c + i` and the cursor ends at `c + n`. -/
theorem rotator_run_spec (keys : List String) (h : keys ≠ []) :
    ∀ n c, Rotator.run ⟨keys, c⟩ n =
      ((List.range n).map (fun i => some (rotKeyAt keys (c + i))), ⟨keys, c + n⟩) := by
  intro n
  induction n with
  | zero => intro c; simp [Rotator.run]
  | succ n ih =>
    intro c
    rw [Rotator.run]
    rw [rotator_next_of_ne keys c h]
    dsimp only
    rw [ih (c + 1)]
    refine Prod.ext ?_ (by simp [Rotator.mk.injEq]; omega)
    simp only [List.range_succ_eq_map, List.map_cons, List.map_map]
    refine List.cons_eq_cons.mpr ⟨by simp, ?_⟩
    apply List.map_congr_left
    intro i _
    simp [Function.comp]
    congr 1
    omega

/-- The first `keys.length` rotator outputs are exactly the stored
credentials in order. -/
theorem rotator_range_map (keys : List String) (_h : keys ≠ []) :
    (List.range keys.length).map (fun i => some (rotKeyAt keys (0 + i))) =
      keys.map some := by
  apply List.ext_getElem (by simp)
  intro i h1 h2
  simp only [List.getElem_map, List.getElem_range]
  have hi : i < keys.length := by simpa using h2
  have hm : (0 + i) % keys.length = i := by
    simp [Nat.mod_eq_of_lt hi]
  rw [rotKeyAt, hm, List.getD_eq_getElem?_getD, List.getElem?_eq_getElem hi]
  simp

/-- C6: for a rotator over a non-empty credential list of length M starting
at cursor 0, M consecutive `next()` calls return each credential exactly once
in stored order (the trace equals `keys.map some`), the (M+1)-th call repeats
the first call's value, and on an empty credential list `next()` returns no
value and leaves the state unchanged. -/
theorem rotator_round_robin (keys : List String) :
    (keys ≠ [] →
      (Rotator.run ⟨keys, 0⟩ keys.length).1 = keys.map some ∧
      (Rotator.run ⟨keys, 0⟩ (keys.length + 1)).1 =
        keys.map some ++ [(Rotator.next ⟨keys, 0⟩).1]) ∧
    (∀ c, Rotator.next ⟨[], c⟩ = (none, ⟨[], c⟩)) := by
  constructor
  · intro h
    constructor
    · rw [rotator_run_spec keys h keys.length 0]
      exact rotator_range_map keys h
    · rw [rotator_run_spec keys h (keys.length + 1) 0]
      simp only [List.range_succ, List.map_append, List.map_cons, List.map_nil]
      rw [rotator_range_map keys h, rotator_next_of_ne keys 0 h]
      have : (0 + keys.length) % keys.length = 0 % keys.length := by
        simp [Nat.add_mod_left]
      simp [rotKeyAt, this]
  · intro c
    simp [Rotator.next]

/-- C6 witness: three credentials cycle in order, and the fourth call repeats
the first. -/
theorem rotator_round_robin_witness :
    (Rotator.run ⟨["k1", "k2", "k3"], 0⟩ 3).1 = ["k1", "k2", "k3"].map some ∧
    (Rotator.run ⟨["k1", "k2", "k3"], 0⟩ 4).1 =
      ["k1", "k2", "k3"].map some ++ [(Rotator.next ⟨["k1", "k2", "k3"], 0⟩).1] :=
  (rotator_round_robin ["k1", "k2", "k3"]).1 (by simp)

/-- C10: `Agent::new` silently replaces sentinel configuration values with
the built-in defaults: empty provider becomes "gemini", empty model becomes
"gemini-3-flash-preview", zero max_iterations becomes 10, temperature exactly
0 becomes 0.3; consequently the constructor can never yield a configuration
with temperature 0 or max_iterations 0. -/
theorem agent_new_replaces_sentinels (config : AgentConfig) :
    (Agent.normalizeConfig config).provider =
      (if config.provider = "" then "gemini" else config.provider) ∧
    (Agent.normalizeConfig config).model =
      (if config.model = "" then "gemini-3-flash-preview" else config.model) ∧
    (Agent.normalizeConfig config).max_iterations =
      (if config.max_iterations = 0 then 10 else config.max_iterations) ∧
    (Agent.normalizeConfig config).temperature =
      (if config.temperature = 0 then 3 / 10 else config.temperature) ∧
    (Agent.normalizeConfig config).temperature ≠ 0 ∧
    (Agent.normalizeConfig config).max_iterations ≠ 0 := by
  unfold Agent.normalizeConfig AgentConfig.default
  split_ifs <;> simp_all

/-- C8: `ToolRegistry::execute` is total and fails softly: an unregistered
name yields `success=false` with error "tool not found"; a handler failure
yields `success=false` carrying the handler's reason; a handler success
yields `success=true` with the handler's output. -/
theorem tool_registry_execute_soft_fail (reg : ToolRegistry) (name : String)
    (args : JValue) :
    (reg.find? (fun p => p.1 = name) = none →
      reg.execute name args = ⟨false, none, some "tool not found"⟩) ∧
    (∀ entry, reg.find? (fun p => p.1 = name) = some entry →
      (∀ err, entry.2.handler args = .error err →
        reg.execute name args = ⟨false, none, some err⟩) ∧
      (∀ v, entry.2.handler args = .ok v →
        reg.execute name args = ⟨true, some v, none⟩)) := by
  refine ⟨fun h => by simp [ToolRegistry.execute, h], fun entry h => ⟨?_, ?_⟩⟩
  · intro err he
    simp [ToolRegistry.execute, h, he]
  · intro v hv
    simp [ToolRegistry.execute, h, hv]

/-- C8 witness: executing an unregistered name on the empty registry. -/
theorem tool_registry_execute_soft_fail_witness :
    ToolRegistry.execute [] "add" (JValue.obj []) =
      ⟨false, none, some "tool not found"⟩ :=
  (tool_registry_execute_soft_fail [] "add" (JValue.obj [])).1 rfl

/-- C7: `ToolRegistry::register` fails with the invalid-name error exactly
when the name is empty; with the schema-mismatch error exactly when (for a
non-empty name) the schema's name is non-empty and differs from the name; with
the already-registered error exactly when (for a non-empty name and a
compatible schema) the name is already present.  Every failure leaves the
registry unchanged, and a success appends the entry with the schema's name
filled from the registration name when it was empty. -/
theorem tool_registry_register_contract (reg : ToolRegistry) (name : String)
    (handler : ToolHandler) (schema : ToolSchema) :
    ((ToolRegistry.register reg name handler schema).1 = .error "invalid tool" ↔
      name = "") ∧
    ((ToolRegistry.register reg name handler schema).1 = .error "schema name mismatch" ↔
      (name ≠ "" ∧ schema.name ≠ "" ∧ schema.name ≠ name)) ∧
    ((ToolRegistry.register reg name handler schema).1 = .error "tool already registered" ↔
      (name ≠ "" ∧ (schema.name = "" ∨ schema.name = name) ∧ reg.has name = true)) ∧
    (∀ e, (ToolRegistry.register reg name handler schema).1 = .error e →
      (ToolRegistry.register reg name handler schema).2 = reg) ∧
    ((ToolRegistry.register reg name handler schema).1 = .ok () →
      (ToolRegistry.register reg name handler schema).2 =
        reg ++ [(name, ⟨name, handler,
          if schema.name = "" then { schema with name := name } else schema⟩)]) := by
  unfold ToolRegistry.register ToolRegistry.has
  by_cases hn : name = "" <;> by_cases hs : schema.name = "" <;>
    by_cases hm : schema.name = name <;>
    by_cases hp : (reg.find? (fun p => p.1 = name)).isSome <;>
    simp_all

/-- C7 witness: registering a tool whose schema name disagrees with the
registration name fails with the mismatch error and leaves the registry
unchanged. -/
theorem tool_registry_register_contract_witness :
    ((ToolRegistry.register [] "add"
        (fun v => .ok v) ⟨"sub", "d", none⟩).1 = .error "schema name mismatch" ↔
      ("add" ≠ "" ∧ ("sub" : String) ≠ "" ∧ ("sub" : String) ≠ "add")) :=
  (tool_registry_register_contract [] "add" (fun v => .ok v) ⟨"sub", "d", none⟩).2.1

/-- C9: `TaskStore::update` is a no-op returning `none` on an unknown id; on
a known id it sets the status, stamps `completed_at` exactly when the new
status is Completed or Failed, and overwrites output/error only when they
are supplied, never clearing them implicitly. -/
theorem task_store_update_contract (m : TaskMap) (id : String)
    (status : TaskStatus) (output error : Option String) (now : Nat) :
    (m.get id = none → TaskStore.update m id status output error now = (none, m)) ∧
    (∀ t, m.get id = some t →
      TaskStore.update m id status output error now =
        (some (TaskStore.applyUpdate t status output error now),
          m.insert id (TaskStore.applyUpdate t status output error now)) ∧
      (TaskStore.applyUpdate t status output error now).id = t.id ∧
      (TaskStore.applyUpdate t status output error now).instruction = t.instruction ∧
      (TaskStore.applyUpdate t status output error now).created_at = t.created_at ∧
      (TaskStore.applyUpdate t status output error now).status = status ∧
      (∀ o, output = some o → (TaskStore.applyUpdate t status output error now).output = some o) ∧
      (output = none → (TaskStore.applyUpdate t status output error now).output = t.output) ∧
      (∀ e, error = some e → (TaskStore.applyUpdate t status output error now).error = some e) ∧
      (error = none → (TaskStore.applyUpdate t status output error now).error = t.error) ∧
      ((status = .Completed ∨ status = .Failed) →
        (TaskStore.applyUpdate t status output error now).completed_at = some now) ∧
      (¬(status = .Completed ∨ status = .Failed) →
        (TaskStore.applyUpdate t status output error now).completed_at = t.completed_at)) := by
  constructor
  · intro h
    simp [TaskStore.update, h]
  · intro t ht
    refine ⟨by simp [TaskStore.update, ht], ?_, ?_, ?_, ?_, ?_, ?_, ?_, ?_, ?_, ?_⟩ <;>
      unfold TaskStore.applyUpdate <;>
      cases output <;> cases error <;> split_ifs <;> simp_all

/-- C9 witness: updating a singleton store to Running supplies no output and
no error, so both fields survive and no completion stamp is set. -/
theorem task_store_update_contract_witness :
    TaskStore.update [("a", ⟨"a", "i", .Pending, some "o", none, 3, none⟩)]
        "a" TaskStatus.Running none none 7 =
      (some (TaskStore.applyUpdate ⟨"a", "i", .Pending, some "o", none, 3, none⟩
          TaskStatus.Running none none 7),
        TaskMap.insert [("a", ⟨"a", "i", .Pending, some "o", none, 3, none⟩)] "a"
          (TaskStore.applyUpdate ⟨"a", "i", .Pending, some "o", none, 3, none⟩
            TaskStatus.Running none none 7)) ∧
    (TaskStore.applyUpdate ⟨"a", "i", .Pending, some "o", none, 3, none⟩
        TaskStatus.Running none none 7).output = some "o" :=
  ⟨((task_store_update_contract [("a", ⟨"a", "i", .Pending, some "o", none, 3, none⟩)]
      "a" TaskStatus.Running none none 7).2
      ⟨"a", "i", .Pending, some "o", none, 3, none⟩ rfl).1,
    (((task_store_update_contract [("a", ⟨"a", "i", .Pending, some "o", none, 3, none⟩)]
      "a" TaskStatus.Running none none 7).2
      ⟨"a", "i", .Pending, some "o", none, 3, none⟩ rfl).2.2.2.2.2.2.1 rfl)⟩

/-- C5 counterexample: a transport failure is classified as `network_error`
with `retryable = true` (gemini_adapter.rs line 149), whereas the claim
demands `retryable = false` for the network-error classification — the bare
iff between the retryable flag and membership in the claimed
auth/rate-limit/server set fails at this input. -/
theorem send_request_network_error_retryable :
    send_request (fun _ => none) (HttpOutcome.netError "timeout") =
      .error ⟨"network_error", "timeout", true⟩ ∧
    ¬(((ProviderError.mk "network_error" "timeout" true).retryable = true) ↔
      ((ProviderError.mk "network_error" "timeout" true).code = "auth_error" ∨
        (ProviderError.mk "network_error" "timeout" true).code = "rate_limit" ∨
        (ProviderError.mk "network_error" "timeout" true).code = "server_error")) :=
  ⟨rfl, by decide⟩

/-- C5 (amended): for every HTTP outcome classified by `send_request`, the
resulting error's retryable flag is true exactly for the `auth_error`,
`rate_limit`, `server_error` and `network_error` classifications, and false
for every other classification (`parse_error` and `api_error`). -/
theorem send_request_retryable_classes (parse : String → Option JValue)
    (outcome : HttpOutcome) (e : ProviderError)
    (h : send_request parse outcome = .error e) :
    e.retryable = true ↔
      (e.code = "auth_error" ∨ e.code = "rate_limit" ∨
        e.code = "server_error" ∨ e.code = "network_error") := by
  cases outcome with
  | netError msg =>
    simp only [send_request, Except.error.injEq] at h
    subst h
    simp
  | response status body =>
    simp only [send_request] at h
    split_ifs at h with h1 h2 h3 h4
    · simp only [Except.error.injEq] at h
      subst h
      simp
    · simp only [Except.error.injEq] at h
      subst h
      simp
    · simp only [Except.error.injEq] at h
      subst h
      simp
    · simp only [Except.error.injEq] at h
      subst h
      simp
    · revert h
      cases parse body with
      | none =>
        intro h
        simp only [Except.error.injEq] at h
        subst h
        simp
      | some raw =>
        intro h
        simp at h

/-- C5 amended-claim witness: the network-error classification carries
`retryable = true` and its code sits in the retryable set. -/
theorem send_request_retryable_classes_witness :
    (ProviderError.mk "network_error" "boom" true).retryable = true ↔
      ((ProviderError.mk "network_error" "boom" true).code = "auth_error" ∨
        (ProviderError.mk "network_error" "boom" true).code = "rate_limit" ∨
        (ProviderError.mk "network_error" "boom" true).code = "server_error" ∨
        (ProviderError.mk "network_error" "boom" true).code = "network_error") :=
  send_request_retryable_classes (fun _ => none) (HttpOutcome.netError "boom") _ rfl

/-- The adapter's attempt loop never performs more sends than it has tries. -/
theorem geminiTryLoop_attempts_le (keys : List String)
    (send : Nat → String → Except ProviderError LLMResponse) :
    ∀ n c le a, (geminiTryLoop keys send n c le a).attempts ≤ a + n := by
  intro n
  induction n with
  | zero => intro c le a; simp [geminiTryLoop]
  | succ n ih =>
    intro c le a
    rw [geminiTryLoop]
    by_cases hk : keys = []
    · subst hk
      simp [Rotator.next]
    · rw [rotator_next_of_ne keys c hk]
      dsimp only
      cases hs : send a (rotKeyAt keys c) with
      | ok resp => simp
      | error e =>
        calc (geminiTryLoop keys send n (c + 1) (some e) (a + 1)).attempts
            ≤ (a + 1) + n := ih (c + 1) (some e) (a + 1)
          _ = a + (n + 1) := by omega

/-- When every one of `n + 1` consecutive attempts fails, the loop performs
all of them, ends with the last error observed, and advances the cursor once
per attempt. -/
theorem geminiTryLoop_all_fail (keys : List String)
    (send : Nat → String → Except ProviderError LLMResponse)
    (errs : Nat → ProviderError) (h : keys ≠ []) :
    ∀ n c a le,
      (∀ j, j < n + 1 → send (a + j) (rotKeyAt keys (c + j)) = .error (errs (a + j))) →
      geminiTryLoop keys send (n + 1) c le a =
        ⟨none, some (errs (a + n)), a + n + 1, c + n + 1⟩ := by
  intro n
  induction n with
  | zero =>
    intro c a le hfail
    rw [geminiTryLoop, rotator_next_of_ne keys c h]
    dsimp only
    have h0 := hfail 0 (by omega)
    rw [show a + 0 = a from by omega, show c + 0 = c from by omega] at h0
    rw [h0]
    rfl
  | succ n ih =>
    intro c a le hfail
    rw [geminiTryLoop, rotator_next_of_ne keys c h]
    dsimp only
    have h0 := hfail 0 (by omega)
    rw [show a + 0 = a from by omega, show c + 0 = c from by omega] at h0
    rw [h0]
    dsimp only
    have hrec := ih (c + 1) (a + 1) (some (errs a)) ?_
    · rw [hrec, show a + 1 + n = a + (n + 1) from by omega,
        show c + 1 + n = c + (n + 1) from by omega]
    · intro j hj
      have := hfail (j + 1) (by omega)
      rw [show a + (j + 1) = a + 1 + j from by omega,
        show c + (j + 1) = c + 1 + j from by omega] at this
      exact this

/-- When the first `i` attempts fail and attempt `i` succeeds, the loop stops
at that success after exactly `i + 1` sends. -/
theorem geminiTryLoop_first_ok (keys : List String)
    (send : Nat → String → Except ProviderError LLMResponse)
    (errs : Nat → ProviderError) (resp : LLMResponse) (h : keys ≠ []) :
    ∀ i n c a le, i < n →
      (∀ j, j < i → send (a + j) (rotKeyAt keys (c + j)) = .error (errs (a + j))) →
      send (a + i) (rotKeyAt keys (c + i)) = .ok resp →
      (geminiTryLoop keys send n c le a).result = some resp ∧
      (geminiTryLoop keys send n c le a).attempts = a + i + 1 := by
  intro i
  induction i with
  | zero =>
    intro n c a le hn hfail hok
    cases n with
    | zero => omega
    | succ m =>
      rw [geminiTryLoop, rotator_next_of_ne keys c h]
      dsimp only
      rw [show a + 0 = a from by omega, show c + 0 = c from by omega] at hok
      rw [hok]
      simp
  | succ i ih =>
    intro n c a le hn hfail hok
    cases n with
    | zero => omega
    | succ m =>
      rw [geminiTryLoop, rotator_next_of_ne keys c h]
      dsimp only
      have h0 := hfail 0 (by omega)
      rw [show a + 0 = a from by omega, show c + 0 = c from by omega] at h0
      rw [h0]
      have hfail' : ∀ j, j < i →
          send (a + 1 + j) (rotKeyAt keys (c + 1 + j)) = .error (errs (a + 1 + j)) := by
        intro j hj
        have := hfail (j + 1) (by omega)
        rw [show a + (j + 1) = a + 1 + j from by omega,
          show c + (j + 1) = c + 1 + j from by omega] at this
        exact this
      have hok' : send (a + 1 + i) (rotKeyAt keys (c + 1 + i)) = .ok resp := by
        rw [show a + 1 + i = a + (i + 1) from by omega,
          show c + 1 + i = c + (i + 1) from by omega]
        exact hok
      have := ih m (c + 1) (a + 1) (some (errs a)) (by omega) hfail' hok'
      refine ⟨this.1, ?_⟩
      rw [this.2]
      omega

/-- C4: with an allowed model, `GeminiAdapter::complete` makes no network
attempt and fails with code `auth_error` on an empty credential list; with a
non-empty credential list of size M it makes at most M `send_request` calls,
stops at the first success and returns its response, and when all M attempts
fail it returns the last observed error after exactly M attempts. -/
theorem gemini_complete_attempt_policy (cfg : GeminiConfig) (cursor : Nat)
    (send : Nat → String → Except ProviderError LLMResponse)
    (request : CompletionRequest) (errs : Nat → ProviderError)
    (resp : LLMResponse)
    (hmodel : request.model.getD cfg.model ∈ GEMINI_ALLOWED_MODELS) :
    (cfg.api_keys = [] →
      GeminiAdapter.complete cfg cursor send request =
        (.error ⟨"auth_error", "no Gemini API keys", false⟩, 0, cursor)) ∧
    ((GeminiAdapter.complete cfg cursor send request).2.1 ≤ cfg.api_keys.length) ∧
    (∀ i, i < cfg.api_keys.length →
      (∀ j, j < i → send j (rotKeyAt cfg.api_keys (cursor + j)) = .error (errs j)) →
      send i (rotKeyAt cfg.api_keys (cursor + i)) = .ok resp →
      (GeminiAdapter.complete cfg cursor send request).1 = .ok resp ∧
      (GeminiAdapter.complete cfg cursor send request).2.1 = i + 1) ∧
    (cfg.api_keys ≠ [] →
      (∀ j, j < cfg.api_keys.length →
        send j (rotKeyAt cfg.api_keys (cursor + j)) = .error (errs j)) →
      (GeminiAdapter.complete cfg cursor send request).1 =
        .error (errs (cfg.api_keys.length - 1)) ∧
      (GeminiAdapter.complete cfg cursor send request).2.1 = cfg.api_keys.length) := by
  refine ⟨?_, ?_, ?_, ?_⟩
  · intro hkeys
    simp [GeminiAdapter.complete, hmodel, hkeys]
  · by_cases hkeys : cfg.api_keys = []
    · simp [GeminiAdapter.complete, hmodel, hkeys]
    · have hlen : cfg.api_keys.length ≠ 0 := by
        simpa using hkeys
      simp only [GeminiAdapter.complete, hmodel, not_true_eq_false, if_false, hlen,
        if_neg hlen]
      cases hres : (geminiTryLoop cfg.api_keys send cfg.api_keys.length cursor none 0).result with
      | none =>
        simp only [hres]
        have := geminiTryLoop_attempts_le cfg.api_keys send cfg.api_keys.length cursor none 0
        simpa using this
      | some r =>
        simp only [hres]
        have := geminiTryLoop_attempts_le cfg.api_keys send cfg.api_keys.length cursor none 0
        simpa using this
  · intro i hi hfail hok
    have hkeys : cfg.api_keys ≠ [] := by
      intro hk
      rw [hk] at hi
      simp at hi
    have hlen : cfg.api_keys.length ≠ 0 := by simpa using hkeys
    have hloop := geminiTryLoop_first_ok cfg.api_keys send errs resp hkeys i
      cfg.api_keys.length cursor 0 none hi
      (by intro j hj; simpa using hfail j hj)
      (by simpa using hok)
    simp only [GeminiAdapter.complete, hmodel, not_true_eq_false, if_false, hlen,
      if_neg hlen]
    rw [hloop.1]
    simp [hloop.2]
  · intro hkeys hfail
    have hlen : cfg.api_keys.length ≠ 0 := by simpa using hkeys
    obtain ⟨m, hm⟩ : ∃ m, cfg.api_keys.length = m + 1 :=
      ⟨cfg.api_keys.length - 1, by omega⟩
    have hloop := geminiTryLoop_all_fail cfg.api_keys send errs hkeys m cursor 0 none ?_
    · simp only [GeminiAdapter.complete, hmodel, not_true_eq_false, if_false, hlen,
        if_neg hlen, hm]
      rw [hloop]
      simp [hm]
    · intro j hj
      have := hfail j (by omega)
      simpa using this

/-- C4 witness: two credentials, both attempts fail with a server error, so
the adapter returns that last error after exactly two attempts. -/
theorem gemini_complete_attempt_policy_witness :
    (GeminiAdapter.complete ⟨["k1", "k2"], "", "gemini-3-flash-preview", 3 / 10⟩ 0
        (fun _ _ => .error ⟨"server_error", "boom", true⟩)
        ⟨[], none, none, none, none, none⟩).1 =
      .error ⟨"server_error", "boom", true⟩ ∧
    (GeminiAdapter.complete ⟨["k1", "k2"], "", "gemini-3-flash-preview", 3 / 10⟩ 0
        (fun _ _ => .error ⟨"server_error", "boom", true⟩)
        ⟨[], none, none, none, none, none⟩).2.1 = 2 :=
  (gemini_complete_attempt_policy ⟨["k1", "k2"], "", "gemini-3-flash-preview", 3 / 10⟩ 0
      (fun _ _ => .error ⟨"server_error", "boom", true⟩)
      ⟨[], none, none, none, none, none⟩
      (fun _ => ⟨"server_error", "boom", true⟩)
      ⟨"", [], none⟩ (by simp [GEMINI_ALLOWED_MODELS])).2.2.2
    (by simp) (fun j _ => rfl)

/-- A non-empty list's `isEmpty` is `false`. -/
theorem isEmpty_false_of_ne {α : Type} (l : List α) (h : l ≠ []) :
    l.isEmpty = false := by
  cases l with
  | nil => exact absurd rfl h
  | cons a l => rfl

/-- Looking up a key in the replace branch of `TaskMap.insert` finds the new
task. -/
theorem TaskMap.get_map_replace (m : TaskMap) (id : String) (t : Task)
    (h : (m.find? (fun p => p.1 = id)).isSome) :
    TaskMap.get (m.map (fun p => if p.1 = id then (id, t) else p)) id = some t := by
  induction m with
  | nil => simp at h
  | cons hd tl ih =>
    by_cases hh : hd.1 = id
    · simp [TaskMap.get, List.find?_cons, hh]
    · have h' : (tl.find? (fun p => p.1 = id)).isSome = true := by
        simpa [List.find?_cons, hh] using h
      simpa [TaskMap.get, List.find?_cons, hh] using ih h'

/-- Looking up a key appended by the absent branch of `TaskMap.insert` finds
the new task. -/
theorem TaskMap.get_append_new (m : TaskMap) (id : String) (t : Task)
    (h : ¬(m.find? (fun p => p.1 = id)).isSome) :
    TaskMap.get (m ++ [(id, t)]) id = some t := by
  induction m with
  | nil => simp [TaskMap.get]
  | cons hd tl ih =>
    by_cases hh : hd.1 = id
    · exact absurd (by simp [List.find?_cons, hh]) h
    · have h' : ¬(tl.find? (fun p => p.1 = id)).isSome := by
        simpa [List.find?_cons, hh] using h
      simpa [TaskMap.get, List.find?_cons, hh] using ih h'

/-- Map lookup after insertion returns the inserted task. -/
theorem TaskMap.get_insert (m : TaskMap) (id : String) (t : Task) :
    (m.insert id t).get id = some t := by
  unfold TaskMap.insert
  by_cases h : (m.find? (fun p => p.1 = id)).isSome
  · rw [if_pos h]
    exact TaskMap.get_map_replace m id t h
  · rw [if_neg h]
    exact TaskMap.get_append_new m id t h

/-- Unfolding the conversation trace across an iteration whose completion
succeeds with a non-empty tool-call list: the next iteration's messages are
the previous ones plus one assistant message and the tool-result messages. -/
theorem iterMessages_succ_ok (ag : AgentModel)
    (env : Nat → CompletionRequest → Except ProviderError LLMResponse)
    (schemas : Option (List ToolSchema)) (seed : List Message) (k : Nat)
    (resp : LLMResponse)
    (hok : env k (buildRequest ag schemas (iterMessages ag env schemas seed k)) =
      .ok resp)
    (hne : resp.tool_calls ≠ []) :
    iterMessages ag env schemas seed (k + 1) =
      iterMessages ag env schemas seed k ++
        ⟨"assistant", resp.content⟩ :: toolMessages ag.tools resp.tool_calls := by
  rw [iterMessages]
  rw [hok]
  simp [isEmpty_false_of_ne resp.tool_calls hne]

/-- One loop step under a successful completion with tool calls: the loop
recurses on the grown conversation and counts one more completion. -/
theorem runLoop_step_ok (ag : AgentModel)
    (env : Nat → CompletionRequest → Except ProviderError LLMResponse)
    (schemas : Option (List ToolSchema)) (seed : List Message) (k fuel : Nat)
    (resp : LLMResponse)
    (hok : env k (buildRequest ag schemas (iterMessages ag env schemas seed k)) =
      .ok resp)
    (hne : resp.tool_calls ≠ []) :
    runLoop ag env schemas k (fuel + 1) (iterMessages ag env schemas seed k) =
      LoopExit.bump 1 (runLoop ag env schemas (k + 1) fuel
        (iterMessages ag env schemas seed (k + 1))) := by
  rw [runLoop]
  rw [hok]
  dsimp only
  rw [isEmpty_false_of_ne resp.tool_calls hne]
  rw [iterMessages_succ_ok ag env schemas seed k resp hok hne]
  simp only [Bool.false_eq_true, if_false]

/-- Bumping by zero is the identity. -/
theorem LoopExit.bump_zero (e : LoopExit) : LoopExit.bump 0 e = e := by
  simp [LoopExit.bump]

/-- Bump composition. -/
theorem LoopExit.bump_bump (n : Nat) (e : LoopExit) :
    LoopExit.bump 1 (LoopExit.bump n e) = LoopExit.bump (n + 1) e := by
  simp [LoopExit.bump, Nat.add_assoc]

/-- Advancing the loop over `n` iterations that all succeed with tool calls:
the run from iteration `k` equals the run from iteration `k + n` on the grown
conversation, with `n` more completions counted. -/
theorem runLoop_advance (ag : AgentModel)
    (env : Nat → CompletionRequest → Except ProviderError LLMResponse)
    (schemas : Option (List ToolSchema)) (seed : List Message) :
    ∀ n k fuel, (∀ j, j < n → okStep ag env schemas seed (k + j)) →
      runLoop ag env schemas k (n + fuel) (iterMessages ag env schemas seed k) =
        LoopExit.bump n (runLoop ag env schemas (k + n) fuel
          (iterMessages ag env schemas seed (k + n))) := by
  intro n
  induction n with
  | zero =>
    intro k fuel h
    simp [LoopExit.bump_zero]
  | succ n ih =>
    intro k fuel h
    obtain ⟨resp, hok, hne⟩ := h 0 (by omega)
    rw [show k + 0 = k from by omega] at hok
    rw [show n + 1 + fuel = (n + fuel) + 1 from by omega]
    rw [runLoop_step_ok ag env schemas seed k (n + fuel) resp hok hne]
    have h' : ∀ j, j < n → okStep ag env schemas seed (k + 1 + j) := by
      intro j hj
      have := h (j + 1) (by omega)
      rwa [show k + (j + 1) = k + 1 + j from by omega] at this
    rw [ih (k + 1) fuel h']
    rw [LoopExit.bump_bump]
    rw [show k + 1 + n = k + (n + 1) from by omega]

/-- C3: within one execution, when iteration `k`'s completion succeeds with a
non-empty tool-call list, the message sequence passed on iteration `k + 1` is
the one passed on iteration `k` extended (appended, never reordered or
truncated — hence a strict prefix) by one assistant message followed by
exactly one user-role message per returned tool call, in the order the calls
were returned; and the loop indeed passes from iteration `k`'s conversation
to iteration `k + 1`'s. -/
theorem agent_conversation_strictly_grows (ag : AgentModel)
    (env : Nat → CompletionRequest → Except ProviderError LLMResponse)
    (schemas : Option (List ToolSchema)) (seed : List Message) (k : Nat)
    (resp : LLMResponse)
    (hok : env k (buildRequest ag schemas (iterMessages ag env schemas seed k)) =
      .ok resp)
    (hne : resp.tool_calls ≠ []) :
    iterMessages ag env schemas seed (k + 1) =
      iterMessages ag env schemas seed k ++
        ⟨"assistant", resp.content⟩ :: toolMessages ag.tools resp.tool_calls ∧
    toolMessages ag.tools resp.tool_calls =
      resp.tool_calls.map (fun call => ⟨"user", toolMessageContent ag.tools call⟩) ∧
    (toolMessages ag.tools resp.tool_calls).length = resp.tool_calls.length ∧
    (∀ msg ∈ toolMessages ag.tools resp.tool_calls, msg.role = "user") ∧
    iterMessages ag env schemas seed k ≠ iterMessages ag env schemas seed (k + 1) ∧
    (∀ fuel, runLoop ag env schemas k (fuel + 1) (iterMessages ag env schemas seed k) =
      LoopExit.bump 1 (runLoop ag env schemas (k + 1) fuel
        (iterMessages ag env schemas seed (k + 1)))) := by
  have happend := iterMessages_succ_ok ag env schemas seed k resp hok hne
  refine ⟨happend, rfl, by simp [toolMessages], ?_, ?_, ?_⟩
  · intro msg hmsg
    simp only [toolMessages, List.mem_map] at hmsg
    obtain ⟨call, _, rfl⟩ := hmsg
    rfl
  · intro heq
    have hlen := congrArg List.length (heq.trans happend)
    simp [List.length_append] at hlen
  · intro fuel
    exact runLoop_step_ok ag env schemas seed k fuel resp hok hne

/-- C3 witness: with no tools registered, a response carrying one tool call
on iteration 0 grows the empty seed by exactly the assistant message and one
user-role tool-result message. -/
theorem agent_conversation_strictly_grows_witness :
    iterMessages ⟨"agent", ⟨"gemini", "gemini-3-flash-preview", none, 2, 3 / 10, true, none⟩,
        "sys", []⟩
      (fun _ _ => .ok ⟨"c", [⟨"f", JValue.obj []⟩], none⟩) none [] (0 + 1) =
      iterMessages ⟨"agent", ⟨"gemini", "gemini-3-flash-preview", none, 2, 3 / 10, true, none⟩,
          "sys", []⟩
        (fun _ _ => .ok ⟨"c", [⟨"f", JValue.obj []⟩], none⟩) none [] 0 ++
        ⟨"assistant", "c"⟩ ::
          toolMessages (⟨"agent", ⟨"gemini", "gemini-3-flash-preview", none, 2, 3 / 10, true, none⟩,
              "sys", []⟩ : AgentModel).tools [⟨"f", JValue.obj []⟩] :=
  (agent_conversation_strictly_grows
    ⟨"agent", ⟨"gemini", "gemini-3-flash-preview", none, 2, 3 / 10, true, none⟩, "sys", []⟩
    (fun _ _ => .ok ⟨"c", [⟨"f", JValue.obj []⟩], none⟩) none [] 0
    ⟨"c", [⟨"f", JValue.obj []⟩], none⟩ rfl (by simp)).1

/-- C1: if iterations before `k` (0-based) all return tool calls and
iteration `k < max_iterations` succeeds with an empty tool-call list, then
`Agent::execute` terminates at that iteration — having made exactly `k + 1`
router completions — returning `success = true` and the response's content as
output, and the created task ends Completed with its output field equal to
that same content. -/
theorem agent_execute_completes_on_empty_toolcalls (ag : AgentModel)
    (env : Nat → CompletionRequest → Except ProviderError LLMResponse)
    (instruction : String) (m : TaskMap) (freshId : String)
    (tCreate tUpdate : Nat) (k : Nat) (resp : LLMResponse)
    (hk : k < ag.config.max_iterations)
    (hprev : ∀ j, j < k →
      okStep ag env (Agent.toolSchemas ag) (seedMessages ag instruction) j)
    (hok : env k (buildRequest ag (Agent.toolSchemas ag)
        (iterMessages ag env (Agent.toolSchemas ag) (seedMessages ag instruction) k)) =
      .ok resp)
    (hempty : resp.tool_calls = []) :
    (Agent.execute ag env instruction (some m) freshId tCreate tUpdate).1.1 = true ∧
    (Agent.execute ag env instruction (some m) freshId tCreate tUpdate).1.2.1 =
      resp.content ∧
    (Agent.execute ag env instruction (some m) freshId tCreate tUpdate).1.2.2 =
      some freshId ∧
    (runLoop ag env (Agent.toolSchemas ag) 0 ag.config.max_iterations
        (seedMessages ag instruction)).calls = k + 1 ∧
    ((Agent.execute ag env instruction (some m) freshId tCreate tUpdate).2.bind
        (fun mm => mm.get freshId)) =
      some ⟨freshId, instruction, .Completed, some resp.content, none, tCreate,
        some tUpdate⟩ := by
  have hprev0 : ∀ j, j < k →
      okStep ag env (Agent.toolSchemas ag) (seedMessages ag instruction) (0 + j) := by
    intro j hj
    simpa using hprev j hj
  have hadv := runLoop_advance ag env (Agent.toolSchemas ag)
    (seedMessages ag instruction) k 0 ((ag.config.max_iterations - k - 1) + 1) hprev0
  simp only [Nat.zero_add] at hadv
  have hstep : runLoop ag env (Agent.toolSchemas ag) k
      ((ag.config.max_iterations - k - 1) + 1)
      (iterMessages ag env (Agent.toolSchemas ag) (seedMessages ag instruction) k) =
      ⟨true, resp.content, (.Completed, some resp.content, none), 1⟩ := by
    rw [runLoop]
    rw [hok]
    simp [hempty]
  have hrun : runLoop ag env (Agent.toolSchemas ag) 0 ag.config.max_iterations
      (seedMessages ag instruction) =
      LoopExit.bump k ⟨true, resp.content, (.Completed, some resp.content, none), 1⟩ := by
    conv_lhs =>
      rw [show ag.config.max_iterations = k + ((ag.config.max_iterations - k - 1) + 1)
        from by omega]
      rw [show seedMessages ag instruction =
        iterMessages ag env (Agent.toolSchemas ag) (seedMessages ag instruction) 0 from rfl]
    rw [hadv, hstep]
  refine ⟨?_, ?_, ?_, ?_, ?_⟩
  · simp [Agent.execute, hrun, LoopExit.bump, TaskStore.create]
  · simp [Agent.execute, hrun, LoopExit.bump, TaskStore.create]
  · simp [Agent.execute, hrun, LoopExit.bump, TaskStore.create]
  · rw [hrun]
    simp [LoopExit.bump]
    omega
  · simp [Agent.execute, hrun, LoopExit.bump, TaskStore.create, TaskStore.update,
      TaskMap.get_insert, TaskStore.applyUpdate]

/-- C1 witness: a single iteration returning content "4" and no tool calls
completes the execution and the task. -/
theorem agent_execute_completes_on_empty_toolcalls_witness :
    (Agent.execute
        ⟨"agent", ⟨"gemini", "gemini-3-flash-preview", none, 3, 3 / 10, true, none⟩,
          "sys", []⟩
        (fun _ _ => .ok ⟨"4", [], none⟩) "2+2" (some []) "task_1" 5 9).1.1 = true ∧
    (Agent.execute
        ⟨"agent", ⟨"gemini", "gemini-3-flash-preview", none, 3, 3 / 10, true, none⟩,
          "sys", []⟩
        (fun _ _ => .ok ⟨"4", [], none⟩) "2+2" (some []) "task_1" 5 9).1.2.1 = "4" ∧
    (Agent.execute
        ⟨"agent", ⟨"gemini", "gemini-3-flash-preview", none, 3, 3 / 10, true, none⟩,
          "sys", []⟩
        (fun _ _ => .ok ⟨"4", [], none⟩) "2+2" (some []) "task_1" 5 9).1.2.2 =
      some "task_1" ∧
    (runLoop
        ⟨"agent", ⟨"gemini", "gemini-3-flash-preview", none, 3, 3 / 10, true, none⟩,
          "sys", []⟩
        (fun _ _ => .ok ⟨"4", [], none⟩)
        (Agent.toolSchemas
          ⟨"agent", ⟨"gemini", "gemini-3-flash-preview", none, 3, 3 / 10, true, none⟩,
            "sys", []⟩) 0 3
        (seedMessages
          ⟨"agent", ⟨"gemini", "gemini-3-flash-preview", none, 3, 3 / 10, true, none⟩,
            "sys", []⟩ "2+2")).calls = 0 + 1 ∧
    ((Agent.execute
        ⟨"agent", ⟨"gemini", "gemini-3-flash-preview", none, 3, 3 / 10, true, none⟩,
          "sys", []⟩
        (fun _ _ => .ok ⟨"4", [], none⟩) "2+2" (some []) "task_1" 5 9).2.bind
        (fun mm => mm.get "task_1")) =
      some ⟨"task_1", "2+2", .Completed, some "4", none, 5, some 9⟩ :=
  agent_execute_completes_on_empty_toolcalls
    ⟨"agent", ⟨"gemini", "gemini-3-flash-preview", none, 3, 3 / 10, true, none⟩, "sys", []⟩
    (fun _ _ => .ok ⟨"4", [], none⟩) "2+2" [] "task_1" 5 9 0 ⟨"4", [], none⟩
    (by decide) (fun j hj => absurd hj (by omega)) rfl rfl

/-- C2: when every one of the `max_iterations = N` completions succeeds with
at least one tool call, `Agent::execute` performs exactly N router
completions and then returns `success = false` with empty output, and the
created task ends Failed with error text "max iterations reached". -/
theorem agent_execute_fails_after_max_iterations (ag : AgentModel)
    (env : Nat → CompletionRequest → Except ProviderError LLMResponse)
    (instruction : String) (m : TaskMap) (freshId : String)
    (tCreate tUpdate : Nat)
    (hall : ∀ j, j < ag.config.max_iterations →
      okStep ag env (Agent.toolSchemas ag) (seedMessages ag instruction) j) :
    (Agent.execute ag env instruction (some m) freshId tCreate tUpdate).1.1 = false ∧
    (Agent.execute ag env instruction (some m) freshId tCreate tUpdate).1.2.1 = "" ∧
    (Agent.execute ag env instruction (some m) freshId tCreate tUpdate).1.2.2 =
      some freshId ∧
    (runLoop ag env (Agent.toolSchemas ag) 0 ag.config.max_iterations
        (seedMessages ag instruction)).calls = ag.config.max_iterations ∧
    ((Agent.execute ag env instruction (some m) freshId tCreate tUpdate).2.bind
        (fun mm => mm.get freshId)) =
      some ⟨freshId, instruction, .Failed, none, some "max iterations reached",
        tCreate, some tUpdate⟩ := by
  have hall0 : ∀ j, j < ag.config.max_iterations →
      okStep ag env (Agent.toolSchemas ag) (seedMessages ag instruction) (0 + j) := by
    intro j hj
    simpa using hall j hj
  have hadv := runLoop_advance ag env (Agent.toolSchemas ag)
    (seedMessages ag instruction) ag.config.max_iterations 0 0 hall0
  simp only [Nat.zero_add, Nat.add_zero] at hadv
  have hrun : runLoop ag env (Agent.toolSchemas ag) 0 ag.config.max_iterations
      (seedMessages ag instruction) =
      LoopExit.bump ag.config.max_iterations
        ⟨false, "", (.Failed, none, some "max iterations reached"), 0⟩ := by
    conv_lhs =>
      rw [show seedMessages ag instruction =
        iterMessages ag env (Agent.toolSchemas ag) (seedMessages ag instruction) 0 from rfl]
    rw [hadv]
    rw [runLoop]
  refine ⟨?_, ?_, ?_, ?_, ?_⟩
  · simp [Agent.execute, hrun, LoopExit.bump, TaskStore.create]
  · simp [Agent.execute, hrun, LoopExit.bump, TaskStore.create]
  · simp [Agent.execute, hrun, LoopExit.bump, TaskStore.create]
  · rw [hrun]
    simp [LoopExit.bump]
  · simp [Agent.execute, hrun, LoopExit.bump, TaskStore.create, TaskStore.update,
      TaskMap.get_insert, TaskStore.applyUpdate]

/-- C2 witness: with `max_iterations = 2` and every completion returning one
tool call, the execution fails after exactly two completions and the task
records "max iterations reached". -/
theorem agent_execute_fails_after_max_iterations_witness :
    (Agent.execute
        ⟨"agent", ⟨"gemini", "gemini-3-flash-preview", none, 2, 3 / 10, true, none⟩,
          "sys", []⟩
        (fun _ _ => .ok ⟨"", [⟨"f", JValue.obj []⟩], none⟩) "go" (some []) "task_2" 5 9).1.1 =
      false ∧
    (Agent.execute
        ⟨"agent", ⟨"gemini", "gemini-3-flash-preview", none, 2, 3 / 10, true, none⟩,
          "sys", []⟩
        (fun _ _ => .ok ⟨"", [⟨"f", JValue.obj []⟩], none⟩) "go" (some []) "task_2" 5 9).1.2.1 =
      "" ∧
    (Agent.execute
        ⟨"agent", ⟨"gemini", "gemini-3-flash-preview", none, 2, 3 / 10, true, none⟩,
          "sys", []⟩
        (fun _ _ => .ok ⟨"", [⟨"f", JValue.obj []⟩], none⟩) "go" (some []) "task_2" 5 9).1.2.2 =
      some "task_2" ∧
    (runLoop
        ⟨"agent", ⟨"gemini", "gemini-3-flash-preview", none, 2, 3 / 10, true, none⟩,
          "sys", []⟩
        (fun _ _ => .ok ⟨"", [⟨"f", JValue.obj []⟩], none⟩)
        (Agent.toolSchemas
          ⟨"agent", ⟨"gemini", "gemini-3-flash-preview", none, 2, 3 / 10, true, none⟩,
            "sys", []⟩) 0 2
        (seedMessages
          ⟨"agent", ⟨"gemini", "gemini-3-flash-preview", none, 2, 3 / 10, true, none⟩,
            "sys", []⟩ "go")).calls = 2 ∧
    ((Agent.execute
        ⟨"agent", ⟨"gemini", "gemini-3-flash-preview", none, 2, 3 / 10, true, none⟩,
          "sys", []⟩
        (fun _ _ => .ok ⟨"", [⟨"f", JValue.obj []⟩], none⟩) "go" (some []) "task_2" 5 9).2.bind
        (fun mm => mm.get "task_2")) =
      some ⟨"task_2", "go", .Failed, none, some "max iterations reached", 5, some 9⟩ :=
  agent_execute_fails_after_max_iterations
    ⟨"agent", ⟨"gemini", "gemini-3-flash-preview", none, 2, 3 / 10, true, none⟩, "sys", []⟩
    (fun _ _ => .ok ⟨"", [⟨"f", JValue.obj []⟩], none⟩) "go" [] "task_2" 5 9
    (fun j hj => ⟨⟨"", [⟨"f", JValue.obj []⟩], none⟩, rfl, by simp⟩)

end BaseAgent
